import Mathlib

/-!
Verification of the MindArsenal habit-coaching bot (src/bot.js, with the
weekly-snapshot append from the src/unnamed/part_001 variant).

The JavaScript state is embedded shallowly:
* a user record is a Lean structure mirroring the object created by
  `ensureUser`;
* the `logs` object (date string -> day log) and `weeklyStats` object are
  association lists keyed by strings, with JS property read/write modelled
  by `getLog` / `setLog`;
* JS numbers used here are nonnegative counters, modelled as `Nat`;
* wall-clock values (`todayDate()`, `new Date().toISOString()`, the cron
  tick time) are passed in as explicit string parameters (injected clock);
* outbound I/O (`bot.sendMessage` via `safeSend`) and the durable snapshot
  write (`saveUsers`) are recorded as an ordered effect trace.
-/

namespace MindArsenal

/-- A check-in entry `{ text, timestamp }` as stored in `user.logs[d].am/pm`. -/
structure Entry where
  text : String
  timestamp : String
deriving DecidableEq, Repr

/-- One day log `user.logs[dateStr]`: optional AM/PM entries, prompt-sent
flags, and the `_counted` stats latch. A fresh `{}` object has every field
absent/falsy. -/
structure DayLog where
  am : Option Entry := none
  pm : Option Entry := none
  amPromptSent : Bool := false
  pmPromptSent : Bool := false
  counted : Bool := false
deriving DecidableEq, Repr

/-- The `user.stats` aggregate from `ensureUser`. -/
structure Stats where
  totalDays : Nat := 0
  daysWithBoth : Nat := 0
  streakCurrent : Nat := 0
  streakBest : Nat := 0
deriving DecidableEq, Repr

/-- The `user.pending` tag: `"setgoals" | "am" | "pm" | null`. -/
inductive Pending where
  | setgoals
  | am
  | pm
deriving DecidableEq, Repr

/-- The `user.onboardingStep` tag:
`"name" | "timezone" | "habits" | "amTime" | "pmTime" | null`. -/
inductive OnbStep where
  | name
  | timezone
  | habits
  | amTime
  | pmTime
deriving DecidableEq, Repr

/-- A weekly snapshot record as written into `user.weeklyStats[weekKey]`
by the weekly cron job of the part_001 variant. -/
structure WeekSnapshot where
  startDate : String
  endDate : String
  habitExecutionRate : Nat
  completedDays : Nat
  totalDays : Nat
  generatedAt : String
deriving DecidableEq, Repr

/-- The per-user record created by `ensureUser`. -/
structure User where
  chatId : String
  firstName : String
  name : String
  timezone : String
  amTime : String
  pmTime : String
  goalsText : String
  habitsText : String
  pending : Option Pending
  onboardingStep : Option OnbStep
  onboarded : Bool
  logs : List (String × DayLog)
  stats : Stats
  weeklyStats : List (String × WeekSnapshot)
deriving DecidableEq, Repr

/-- Read of a string-keyed JS object property: `obj[k]`, `undefined` as
`none`. -/
def getLog : List (String × DayLog) → String → Option DayLog
  | [], _ => none
  | (k', v') :: rest, k => if k' = k then some v' else getLog rest k

/-- Write of a string-keyed JS object property: `obj[k] = v`. -/
def setLog : List (String × DayLog) → String → DayLog → List (String × DayLog)
  | [], k, v => [(k, v)]
  | (k', v') :: rest, k, v =>
    if k' = k then (k, v) :: rest else (k', v') :: setLog rest k v

/-- `if (!user.logs[d]) user.logs[d] = {};` -/
def ensureLogDay (logs : List (String × DayLog)) (d : String) :
    List (String × DayLog) :=
  match getLog logs d with
  | some _ => logs
  | none => setLog logs d {}

/-- Read of `user.weeklyStats[k]`. -/
def getWeek : List (String × WeekSnapshot) → String → Option WeekSnapshot
  | [], _ => none
  | (k', v') :: rest, k => if k' = k then some v' else getWeek rest k

/-- Write of `user.weeklyStats[k] = v`. -/
def setWeek : List (String × WeekSnapshot) → String → WeekSnapshot →
    List (String × WeekSnapshot)
  | [], k, v => [(k, v)]
  | (k', v') :: rest, k, v =>
    if k' = k then (k, v) :: rest else (k', v') :: setWeek rest k v

/-- The fresh user object that `ensureUser` creates on first contact. -/
def initUser (chatId firstName : String) : User where
  chatId := chatId
  firstName := firstName
  name := ""
  timezone := ""
  amTime := "07:00"
  pmTime := "21:00"
  goalsText := ""
  habitsText := ""
  pending := none
  onboardingStep := none
  onboarded := false
  logs := []
  stats := {}
  weeklyStats := {}

/-- `updateDailyStats(user, dateStr)` from bot.js: no-op when the day log
is absent or already `_counted`; otherwise counts the day, updates the
full-day count and the streaks, and latches `_counted`. -/
def updateDailyStats (user : User) (dateStr : String) : User :=
  match getLog user.logs dateStr with
  | none => user
  | some day =>
    if day.counted then user
    else
      let stats0 := { user.stats with totalDays := user.stats.totalDays + 1 }
      let stats1 :=
        if day.am.isSome ∧ day.pm.isSome then
          { stats0 with
            daysWithBoth := stats0.daysWithBoth + 1
            streakCurrent := stats0.streakCurrent + 1
            streakBest := max stats0.streakBest (stats0.streakCurrent + 1) }
        else
          { stats0 with streakCurrent := 0 }
      { user with
        stats := stats1
        logs := setLog user.logs dateStr { day with counted := true } }

/-- Characters of a string with leading and trailing whitespace removed. -/
def trimChars (l : List Char) : List Char :=
  ((l.dropWhile Char.isWhitespace).reverse.dropWhile Char.isWhitespace).reverse

/-- JS `String.prototype.trim()`: strip leading and trailing whitespace. -/
def jsTrim (s : String) : String := String.mk (trimChars s.data)

/-- JS `String.prototype.startsWith(p)`: the characters of `p` are a
prefix of the characters of the string. -/
def jsStartsWith (s p : String) : Bool := p.data.isPrefixOf s.data

/-- Numeric value of a decimal digit character. -/
def digitVal (c : Char) : Nat := c.toNat - Char.toNat '0'

/-- `String(n).padStart(2, "0")` for the hour/minute values (≤ 59). -/
def pad2 (n : Nat) : String :=
  if n < 10 then "0" ++ toString n else toString n

/-- The anchored regex `^(\d\x7b1,2\x7d):(\d\x7b2\x7d)$` of
`formatTimeString`, applied to the character list of the trimmed input:
one or two hour digits, a colon, exactly two minute digits. Returns the
numeric hour and minute of the match. -/
def timeMatch : List Char → Option (Nat × Nat)
  | [h1, c, m1, m2] =>
    if c = ':' ∧ h1.isDigit ∧ m1.isDigit ∧ m2.isDigit then
      some (digitVal h1, 10 * digitVal m1 + digitVal m2)
    else none
  | [h1, h2, c, m1, m2] =>
    if c = ':' ∧ h1.isDigit ∧ h2.isDigit ∧ m1.isDigit ∧ m2.isDigit then
      some (10 * digitVal h1 + digitVal h2, 10 * digitVal m1 + digitVal m2)
    else none
  | _ => none

/-- `formatTimeString(text)` from bot.js: match the trimmed text against
`^(\d\x7b1,2\x7d):(\d\x7b2\x7d)$`, range-check hour and minute, and return
the zero-padded `HH:MM` normal form (`null` modelled as `none`). -/
def formatTimeString (text : String) : Option String :=
  match timeMatch (trimChars text.data) with
  | none => none
  | some (h, m) =>
    if h ≤ 23 ∧ m ≤ 59 then some (pad2 h ++ ":" ++ pad2 m) else none

/-- Outcome of the one OpenAI chat-completion call inside `coachReply`:
the key may be missing (`hasOpenAI` false), the call may succeed with a
response text, or it may throw with an error message. -/
inductive AIOutcome where
  | noKey
  | success (text : String)
  | failure (errMsg : String)
deriving DecidableEq, Repr

/-- `user.name || user.firstName || "warrior"` (JS string truthiness). -/
def coachName (user : User) : String :=
  if user.name ≠ "" then user.name
  else if user.firstName ≠ "" then user.firstName
  else "warrior"

/-- `user.goalsText || user.habitsText || "No mission defined."` -/
def coachGoals (user : User) : String :=
  if user.goalsText ≠ "" then user.goalsText
  else if user.habitsText ≠ "" then user.habitsText
  else "No mission defined."

/-- `coachReply(user, text)` from bot.js, with the collaborator call
abstracted into its `AIOutcome`: offline template when no key, trimmed
model output on success, deterministic fallback echoing the message on a
thrown error. -/
def coachReply (user : User) (text : String) (ai : AIOutcome) : String :=
  match ai with
  | .noKey => coachName user ++ ", system offline.\nYour mission:\n" ++ coachGoals user
  | .success t => jsTrim t
  | .failure _ =>
    coachName user ++ ", OpenAI failed.\nMessage:\n\"" ++ text ++
      "\"\nExecute one step now."

/-- The AM prompt constant from bot.js. -/
def AM_PROMPT : String :=
  "Dawn Report.\n\nState your 3 critical objectives for today.\n\nConcrete actions only. No wishes. No fluff."

/-- The PM prompt constant from bot.js. -/
def PM_PROMPT : String :=
  "Nightly Debrief.\n\nReport:\n- What did you execute?\n- What did you skip?\n- Why?\n\nNo excuses. Only truth."

/-- An observable outbound effect, in program order: a chat send
(`safeSend(chatId, text)`) or a full-snapshot durable write
(`saveUsers`, carrying the user snapshot it persists). -/
inductive Effect where
  | send (chatId : String) (text : String)
  | save (snapshot : List User)
deriving DecidableEq, Repr

/-- Whether an effect is a chat send. -/
def Effect.isSend : Effect → Bool
  | .send _ _ => true
  | .save _ => false

/-- Whether an effect is a send of the AM prompt. -/
def Effect.isAMSend : Effect → Bool
  | .send _ t => t = AM_PROMPT
  | .save _ => false

/-- Number of AM-prompt sends in a trace. -/
def amSendCount (tr : List Effect) : Nat :=
  (tr.filter Effect.isAMSend).length

/-- The per-user body of the minute cron tick in bot.js (lines 560-585):
for an onboarded user, ensure the day log, then fire the AM prompt when
`current === user.amTime` and the flag is clear (send, set
`pending = "am"`, latch `amPromptSent`), then symmetrically the PM prompt.
The trace holds the sends in program order; the end-of-tick save belongs
to `tickAll`. -/
def tickUser (d current : String) (u : User) : User × List Effect :=
  if u.onboarded = false then (u, [])
  else
    let logs1 := ensureLogDay u.logs d
    let day1 := (getLog logs1 d).getD {}
    let fireAM := current = u.amTime ∧ day1.amPromptSent = false
    let u2 :=
      if fireAM then
        { u with
          pending := some .am
          logs := setLog logs1 d { day1 with amPromptSent := true } }
      else { u with logs := logs1 }
    let eff1 := if fireAM then [Effect.send u.chatId AM_PROMPT] else []
    let day2 := (getLog u2.logs d).getD {}
    let firePM := current = u.pmTime ∧ day2.pmPromptSent = false
    let u3 :=
      if firePM then
        { u2 with
          pending := some .pm
          logs := setLog u2.logs d { day2 with pmPromptSent := true } }
      else u2
    let eff2 := if firePM then [Effect.send u.chatId PM_PROMPT] else []
    (u3, eff1 ++ eff2)

/-- The whole minute cron tick (bot.js lines 548-588): every user is
processed in order, and `saveUsers` runs once at the end when anything
changed (`changed` is set exactly when some prompt fired, i.e. when some
send was emitted). -/
def tickAll (d current : String) (us : List User) : List User × List Effect :=
  let results := us.map (tickUser d current)
  let us' := results.map Prod.fst
  let sends := (results.map Prod.snd).flatten
  (us', sends ++ (if sends = [] then [] else [Effect.save us']))

/-- The `/start` summary text for an already-onboarded user. -/
def startSummary (u : User) : String :=
  "MindArsenal Coach online.\nYou are enlisted.\n\n" ++
    "Name: " ++ (if u.name ≠ "" then u.name else u.firstName) ++ "\n" ++
    "Zone: " ++ u.timezone ++ "\n" ++
    "AM: " ++ u.amTime ++ "\nPM: " ++ u.pmTime ++ "\n\n" ++
    "Mission:\n" ++ u.goalsText ++ "\n\n" ++
    "Discipline:\n" ++
    "• Full execution days: " ++ toString u.stats.daysWithBoth ++ "/" ++
    toString u.stats.totalDays ++ "\n" ++
    "• Current streak: " ++ toString u.stats.streakCurrent ++ "\n" ++
    "• Best streak: " ++ toString u.stats.streakBest

/-- `/start` handler (bot.js lines 285-317). `ensureUser` saves on every
inbound update, so the trace opens with a save of the incoming state.
Onboarded users get the summary only; otherwise `onboardingStep` is set to
`"name"` (the outstanding `pending` is NOT cleared) and saved. -/
def cmdStart (u : User) : User × List Effect :=
  if u.onboarded then
    (u, [Effect.save [u], Effect.send u.chatId (startSummary u)])
  else
    let u' := { u with onboardingStep := some .name }
    (u', [Effect.save [u], Effect.save [u'],
          Effect.send u.chatId "Welcome to the MindArsenal Beta.\nThis system will hold you to a warrior standard.\n\nExpect morning commands, nightly accountability, and a weekly war report.\nYour job: reply honestly and execute daily.\n\nFailure is noted. Progress is forged.\nStay sharp.",
          Effect.send u.chatId "MindArsenal Coach online.\nStep 1/5 — Name.\nHow do I address you?"])

/-- `/onboard` handler (bot.js lines 320-327): reset `onboardingStep` to
`"name"` and `onboarded` to false; `pending` is NOT cleared. -/
def cmdOnboard (u : User) : User × List Effect :=
  let u' := { u with onboardingStep := some .name, onboarded := false }
  (u', [Effect.save [u], Effect.save [u'],
        Effect.send u.chatId "Onboarding reset.\nStep 1/5 — Name.\nHow do I call you?"])

/-- `/setgoals` handler (bot.js lines 330-336): set `pending` to
`"setgoals"`; `onboardingStep` is NOT cleared. -/
def cmdSetGoals (u : User) : User × List Effect :=
  let u' := { u with pending := some .setgoals }
  (u', [Effect.save [u], Effect.save [u'],
        Effect.send u.chatId "Update mission.\nSend your TOP 3 habits/goals."])

/-- `/test_am` handler (bot.js lines 358-371): gated on `onboarded`;
ensures the day log, SENDS the AM prompt, then mutates
(`pending = "am"`, `amPromptSent = true`) and only then saves. -/
def cmdTestAM (d : String) (u : User) : User × List Effect :=
  if u.onboarded = false then
    (u, [Effect.save [u], Effect.send u.chatId "Complete onboarding first."])
  else
    let logs1 := ensureLogDay u.logs d
    let day1 := (getLog logs1 d).getD {}
    let u' :=
      { u with
        pending := some .am
        logs := setLog logs1 d { day1 with amPromptSent := true } }
    (u', [Effect.save [u], Effect.send u.chatId AM_PROMPT, Effect.save [u']])

/-- `/test_pm` handler (bot.js lines 374-387), symmetric to `/test_am`. -/
def cmdTestPM (d : String) (u : User) : User × List Effect :=
  if u.onboarded = false then
    (u, [Effect.save [u], Effect.send u.chatId "Complete onboarding first."])
  else
    let logs1 := ensureLogDay u.logs d
    let day1 := (getLog logs1 d).getD {}
    let u' :=
      { u with
        pending := some .pm
        logs := setLog logs1 d { day1 with pmPromptSent := true } }
    (u', [Effect.save [u], Effect.send u.chatId PM_PROMPT, Effect.save [u']])

/-- Advance of the onboarding flow on one free-text input (the
`if (user.onboardingStep)` block of the message router, bot.js lines
446-504). `value` is the trimmed text. -/
def onboardingAdvance (step : OnbStep) (value : String) (u : User) :
    User × List Effect :=
  match step with
  | .name =>
    let u' := { u with name := value, onboardingStep := some .timezone }
    (u', [Effect.save [u'],
          Effect.send u.chatId "Step 2/5 — Timezone.\nExample: Europe/Zurich"])
  | .timezone =>
    let u' := { u with timezone := value, onboardingStep := some .habits }
    (u', [Effect.save [u'],
          Effect.send u.chatId "Step 3/5 — Mission.\nSend your TOP 3 habits/goals."])
  | .habits =>
    let u' :=
      { u with goalsText := value, habitsText := value,
               onboardingStep := some .amTime }
    (u', [Effect.save [u'],
          Effect.send u.chatId "Step 4/5 — AM time.\nExample: 07:00"])
  | .amTime =>
    match formatTimeString value with
    | none => (u, [Effect.send u.chatId "Invalid format. Use HH:MM (24h)."])
    | some t =>
      let u' := { u with amTime := t, onboardingStep := some .pmTime }
      (u', [Effect.save [u'],
            Effect.send u.chatId "Step 5/5 — PM time.\nExample: 21:00"])
  | .pmTime =>
    match formatTimeString value with
    | none => (u, [Effect.send u.chatId "Invalid format. Use HH:MM (24h)."])
    | some t =>
      let u' :=
        { u with pmTime := t, onboardingStep := none, onboarded := true }
      (u', [Effect.save [u'],
            Effect.send u.chatId ("Onboarding complete.\nProtocol armed.\n\nName: " ++ u.name ++ "\nZone: " ++ u.timezone ++ "\nAM: " ++ u'.amTime ++ "\nPM: " ++ u'.pmTime ++ "\n\nMission:\n" ++ u.goalsText ++ "\n\nReports will hit at your times.\nRespond. No excuses.")])

/-- The free-text message router (`bot.on("message")`, bot.js lines
427-545): commands (leading `/`) are skipped; `ensureUser` saves; the day
log for today is ensured; then, in priority order, the onboarding step,
the `setgoals` / `am` / `pm` pending intents, and finally the AI fallback.
`d` is `todayDate()`, `ts` is `new Date().toISOString()`, `ai` the
collaborator outcome of a fallback call. -/
def handleMessage (d text ts : String) (ai : AIOutcome) (u : User) :
    User × List Effect :=
  if jsStartsWith text "/" then (u, [])
  else
    let u0 := { u with logs := ensureLogDay u.logs d }
    let pre := [Effect.save [u]]
    match u0.onboardingStep with
    | some step =>
      let (u', eff) := onboardingAdvance step (jsTrim text) u0
      (u', pre ++ eff)
    | none =>
      match u0.pending with
      | some .setgoals =>
        let u' :=
          { u0 with goalsText := jsTrim text, habitsText := jsTrim text,
                    pending := none }
        (u', pre ++ [Effect.save [u'],
              Effect.send u.chatId ("Mission updated:\n" ++ u'.goalsText)])
      | some .am =>
        let day := (getLog u0.logs d).getD {}
        let u' :=
          { u0 with logs := setLog u0.logs d { day with am := some ⟨text, ts⟩ },
                    pending := none }
        (u', pre ++ [Effect.save [u'],
              Effect.send u.chatId "Dawn Report logged.\nExecute."])
      | some .pm =>
        let day := (getLog u0.logs d).getD {}
        let u1 :=
          { u0 with logs := setLog u0.logs d { day with pm := some ⟨text, ts⟩ },
                    pending := none }
        let u' := updateDailyStats u1 d
        (u', pre ++ [Effect.save [u'],
              Effect.send u.chatId "Nightly Debrief logged.\nTomorrow the standard rises."])
      | none =>
        (u0, pre ++ [Effect.send u.chatId (coachReply u0 text ai)])

/-- One mutation event on a single user record: a free-text message, a
scheduler tick, or one of the state-changing commands. Commands that do
not mutate the record (`/status`, `/test_weekly`, `/gpt`) are omitted. -/
inductive Op where
  | msg (d text ts : String) (ai : AIOutcome)
  | tick (d current : String)
  | start
  | onboard
  | setgoals
  | testAM (d : String)
  | testPM (d : String)

/-- State-and-trace semantics of one operation. -/
def stepE : Op → User → User × List Effect
  | .msg d text ts ai, u => handleMessage d text ts ai u
  | .tick d current, u => tickUser d current u
  | .start, u => cmdStart u
  | .onboard, u => cmdOnboard u
  | .setgoals, u => cmdSetGoals u
  | .testAM d, u => cmdTestAM d u
  | .testPM d, u => cmdTestPM d u

/-- State part of one operation. -/
def step (op : Op) (u : User) : User := (stepE op u).1

/-- Folding a sequence of operations over a user record. -/
def applyOps (ops : List Op) (u : User) : User :=
  ops.foldl (fun s op => step op s) u

/-- `sim n d current u`: `n` consecutive minute ticks for one user at the
same date and clock reading, with the concatenated send trace. -/
def sim : Nat → String → String → User → User × List Effect
  | 0, _, _, u => (u, [])
  | n + 1, d, current, u =>
    let r1 := tickUser d current u
    let r2 := sim n d current r1.1
    (r2.1, r1.2 ++ r2.2)

/-- The `amPromptSent` flag of the day log for key `k` (false when the day
log is absent, matching JS falsiness of `undefined`). -/
def flagAM (u : User) (k : String) : Bool :=
  ((getLog u.logs k).getD {}).amPromptSent

/-- The `pmPromptSent` flag of the day log for key `k`. -/
def flagPM (u : User) (k : String) : Bool :=
  ((getLog u.logs k).getD {}).pmPromptSent

/-- Insertion of a string into a lexicographically sorted list
(one step of the sort used for `[...dates].sort()`). -/
def insertSorted (x : String) : List String → List String
  | [] => [x]
  | y :: ys => if x ≤ y then x :: y :: ys else y :: insertSorted x ys

/-- `[...dates].sort()`: JS default sort on the date strings is the
lexicographic order on their characters. -/
def sortStrings (l : List String) : List String :=
  l.foldr insertSorted []

/-- Whether the date has a day log with both entries (`logs[d].am && logs[d].pm`). -/
def isFullOn (logs : List (String × DayLog)) (k : String) : Bool :=
  match getLog logs k with
  | some day => day.am.isSome && day.pm.isSome
  | none => false

/-- Whether the date has any day log at all (`if (logs[d])`). -/
def isLoggedOn (logs : List (String × DayLog)) (k : String) : Bool :=
  (getLog logs k).isSome

/-- `Math.round((completedDays / totalDays) * 100)` over the exact
rationals: round half up of `100 * full / total` (the denominators 1..7
reachable here admit no floating-point discrepancy with this value). -/
def executionRate (full total : Nat) : Nat :=
  if total = 0 then 0 else (200 * full + total) / (2 * total)

/-- The weekly message text built by the weekly cron job. -/
def weeklyMsg (todayStr : String) (rate full total : Nat) : String :=
  "Weekly War Report.\n\nLast 7 days (up to " ++ todayStr ++ "):\n• Execution rate: " ++
    toString rate ++ "%\n• Full execution days: " ++ toString full ++ "/" ++
    toString total ++ "\n\nThis week is dead.\nThe next one is unbuilt.\nDominate it."

/-- The week key `datesSorted[0] + "_" + datesSorted[last]` of the weekly
snapshot. -/
def weekKeyOf (dates : List String) : String :=
  let ds := sortStrings dates
  ds.headD "" ++ "_" ++ ds.getLastD ""

/-- The per-user body of the weekly cron job of the part_001 variant
(lines 688-736): skip non-onboarded users; over the trailing seven date
keys (`dates`, newest first, computed from the clock and passed in here),
count days with any log and days with both entries; derive the execution
rate; send the report; then store the `WeekSnapshot` under the week key.
`todayStr` is `todayDate()` and `now` the generation timestamp. -/
def weeklyStep (dates : List String) (todayStr now : String) (u : User) :
    User × List Effect :=
  if u.onboarded = false then (u, [])
  else
    let totalDays := (dates.filter (isLoggedOn u.logs)).length
    let completedDays := (dates.filter (isFullOn u.logs)).length
    let rate := executionRate completedDays totalDays
    let ds := sortStrings dates
    let snap : WeekSnapshot :=
      { startDate := ds.headD ""
        endDate := ds.getLastD ""
        habitExecutionRate := rate
        completedDays := completedDays
        totalDays := totalDays
        generatedAt := now }
    let u' := { u with weeklyStats := setWeek u.weeklyStats (weekKeyOf dates) snap }
    (u', [Effect.send u.chatId (weeklyMsg todayStr rate completedDays totalDays)])

/-- The whole weekly cron job of the part_001 variant: every user in
order (each send preceding that user's snapshot append), then one
unconditional `saveUsers`. -/
def weeklyJob (dates : List String) (todayStr now : String) (us : List User) :
    List User × List Effect :=
  let results := us.map (weeklyStep dates todayStr now)
  let us' := results.map Prod.fst
  ((results.map Prod.fst), (results.map Prod.snd).flatten ++ [Effect.save us'])

/-- A save effect whose snapshot records a fired AM prompt
(`pending === "am"`): the durable write of the prompt mutation. -/
def Effect.isMutSave : Effect → Bool
  | .save us => us.any (fun v => v.pending = some Pending.am)
  | .send _ _ => false

/-- Whether some save whose snapshot carries the fired-AM mutation occurs
strictly before some AM-prompt send in the trace. -/
def mutSavePrecedesAMSend : List Effect → Bool
  | [] => false
  | e :: rest => (e.isMutSave && rest.any Effect.isAMSend) || mutSavePrecedesAMSend rest

/-- Whether some save occurs strictly before some send in the trace. -/
def savePrecedesSend : List Effect → Bool
  | [] => false
  | Effect.save _ :: rest => rest.any Effect.isSend || savePrecedesSend rest
  | Effect.send _ _ :: rest => savePrecedesSend rest

/-! ### Association-list lemmas -/

theorem getLog_setLog_self (l : List (String × DayLog)) (k : String) (v : DayLog) :
    getLog (setLog l k v) k = some v := by
  induction l with
  | nil => simp [getLog, setLog]
  | cons hd tl ih =>
    by_cases h : hd.1 = k
    · simp [getLog, setLog, h]
    · simpa [getLog, setLog, h] using ih

theorem getLog_setLog_ne (l : List (String × DayLog)) (k k' : String) (v : DayLog)
    (h : k' ≠ k) : getLog (setLog l k v) k' = getLog l k' := by
  induction l with
  | nil => simp [getLog, setLog, h, Ne.symm h]
  | cons hd tl ih =>
    by_cases hk : hd.1 = k
    · simp [getLog, setLog, hk, h, Ne.symm h]
    · by_cases hk' : hd.1 = k'
      · simp [getLog, setLog, hk, hk', h]
      · simpa [getLog, setLog, hk, hk'] using ih

theorem getLog_ensureLogDay_self (logs : List (String × DayLog)) (d : String) :
    getLog (ensureLogDay logs d) d = some ((getLog logs d).getD {}) := by
  unfold ensureLogDay
  cases h : getLog logs d with
  | none => simp [getLog_setLog_self]
  | some day => simp [h]

theorem getLog_ensureLogDay_ne (logs : List (String × DayLog)) (d k : String)
    (h : k ≠ d) : getLog (ensureLogDay logs d) k = getLog logs k := by
  unfold ensureLogDay
  cases hg : getLog logs d with
  | none => simp [getLog_setLog_ne _ _ _ _ h]
  | some day => rfl

theorem getWeek_setWeek_self (l : List (String × WeekSnapshot)) (k : String)
    (v : WeekSnapshot) : getWeek (setWeek l k v) k = some v := by
  induction l with
  | nil => simp [getWeek, setWeek]
  | cons hd tl ih =>
    by_cases h : hd.1 = k
    · simp [getWeek, setWeek, h]
    · simpa [getWeek, setWeek, h] using ih

theorem getWeek_setWeek_ne (l : List (String × WeekSnapshot)) (k k' : String)
    (v : WeekSnapshot) (h : k' ≠ k) :
    getWeek (setWeek l k v) k' = getWeek l k' := by
  induction l with
  | nil => simp [getWeek, setWeek, h, Ne.symm h]
  | cons hd tl ih =>
    by_cases hk : hd.1 = k
    · simp [getWeek, setWeek, hk, h, Ne.symm h]
    · by_cases hk' : hd.1 = k'
      · simp [getWeek, setWeek, hk, hk', h]
      · simpa [getWeek, setWeek, hk, hk'] using ih

/-- After `updateDailyStats`, the day log looked up at the same date is
always `_counted`. -/
theorem counted_after_updateDailyStats (u : User) (d : String) (day' : DayLog)
    (h : getLog (updateDailyStats u d).logs d = some day') :
    day'.counted = true := by
  rw [updateDailyStats.eq_def] at h
  cases hg : getLog u.logs d with
  | none =>
    rw [hg] at h
    simp only at h
    rw [hg] at h
    cases h
  | some day =>
    rw [hg] at h
    simp only at h
    by_cases hc : day.counted
    · rw [if_pos hc] at h
      rw [hg] at h
      cases h
      exact hc
    · rw [if_neg hc] at h
      simp only [getLog_setLog_self] at h
      cases h
      rfl

/-! ### C6: the time-string validator -/

/-- C6 (counterexample): the claim states that `formatTimeString` accepts
`"0:0"` and normalizes it to `"00:00"`; in the code the minute group of
the regex requires exactly two digits, so `"0:0"` is rejected. -/
theorem formatTimeString_cex : formatTimeString "0:0" = none := by decide

/-- C6 (amended): `formatTimeString` accepts `"07:00"` and `"23:59"`
unchanged, rejects `"0:0"` (the minutes must be exactly two digits; only
a one-digit HOUR is normalized, e.g. `"7:00"` to `"07:00"`), and rejects
`"24:00"`, `"12:60"`, `"7"`, and `"7:0a"`. -/
theorem formatTimeString_spec :
    formatTimeString "07:00" = some "07:00" ∧
    formatTimeString "23:59" = some "23:59" ∧
    formatTimeString "0:0" = none ∧
    formatTimeString "7:00" = some "07:00" ∧
    formatTimeString "24:00" = none ∧
    formatTimeString "12:60" = none ∧
    formatTimeString "7" = none ∧
    formatTimeString "7:0a" = none := by decide

/-! ### C2/C3: the streak accounter -/

/-- A day log with both entries present. -/
def fullDayLog : DayLog := { am := some ⟨"did", "t1"⟩, pm := some ⟨"done", "t2"⟩ }

/-- A day log with only the AM entry present. -/
def halfDayLog : DayLog := { am := some ⟨"did", "t1"⟩ }

/-- A user (zeroed stats) holding the [full, full, partial, full] pattern
of the streak law over four dates. -/
def seqUser : User :=
  { initUser "1" "A" with
    logs := [("2025-01-01", fullDayLog), ("2025-01-02", fullDayLog),
             ("2025-01-03", halfDayLog), ("2025-01-04", fullDayLog)] }

/-- Closing a list of dates in order through `updateDailyStats`. -/
def closeAll (u : User) (ds : List String) : User :=
  ds.foldl updateDailyStats u

/-- What one uncounted closing does to the stats fields. -/
def CloseDayDelta (u : User) (d : String) (day : DayLog) : Prop :=
  (updateDailyStats u d).stats.totalDays = u.stats.totalDays + 1 ∧
  (day.am.isSome ∧ day.pm.isSome →
    (updateDailyStats u d).stats.daysWithBoth = u.stats.daysWithBoth + 1 ∧
    (updateDailyStats u d).stats.streakCurrent = u.stats.streakCurrent + 1 ∧
    (updateDailyStats u d).stats.streakBest
      = max u.stats.streakBest (u.stats.streakCurrent + 1)) ∧
  (¬(day.am.isSome ∧ day.pm.isSome) →
    (updateDailyStats u d).stats.streakCurrent = 0 ∧
    (updateDailyStats u d).stats.daysWithBoth = u.stats.daysWithBoth ∧
    (updateDailyStats u d).stats.streakBest = u.stats.streakBest)

/-- C2: `updateDailyStats` on an uncounted day increments `totalDays`,
and either increments `daysWithBoth` and `streakCurrent` and takes the max
into `streakBest` (both entries present) or resets `streakCurrent` to 0;
closing the four-day pattern [full, full, partial, full] in order from
zeroed stats yields `streakCurrent = 1` and `streakBest = 2`. -/
theorem updateDailyStats_spec :
    (∀ (u : User) (d : String) (day : DayLog),
      getLog u.logs d = some day → day.counted = false →
      CloseDayDelta u d day) ∧
    (closeAll seqUser
        ["2025-01-01", "2025-01-02", "2025-01-03", "2025-01-04"]).stats.streakCurrent
      = 1 ∧
    (closeAll seqUser
        ["2025-01-01", "2025-01-02", "2025-01-03", "2025-01-04"]).stats.streakBest
      = 2 := by
  refine ⟨?_, by decide, by decide⟩
  intro u d day hget hc
  unfold CloseDayDelta updateDailyStats
  rw [hget]
  simp only [hc, if_false, Bool.false_eq_true]
  by_cases hb : day.am.isSome ∧ day.pm.isSome
  · simp [hb]
  · simp [hb]

/-- C2 (witness): the delta description applied at the first date of the
concrete four-day pattern. -/
theorem updateDailyStats_spec_witness :
    (getLog seqUser.logs "2025-01-01" = some fullDayLog ∧
      fullDayLog.counted = false) ∧
    CloseDayDelta seqUser "2025-01-01" fullDayLog :=
  ⟨⟨by decide, by decide⟩,
    updateDailyStats_spec.1 seqUser "2025-01-01" fullDayLog (by decide) (by decide)⟩

/-- C3: `updateDailyStats` is idempotent — the second invocation for the
same date finds the `_counted` latch set (or no day log at all) and leaves
the whole user record, stats and logs included, unchanged. -/
theorem updateDailyStats_idempotent (u : User) (d : String) :
    updateDailyStats (updateDailyStats u d) d = updateDailyStats u d := by
  conv_lhs => rw [updateDailyStats.eq_def]
  cases h : getLog (updateDailyStats u d).logs d with
  | none => rfl
  | some day' =>
    have hc := counted_after_updateDailyStats u d day' h
    simp [hc]

/-! ### C9: the coach responder fallback -/

/-- C9: `coachReply` never propagates a collaborator failure: on a thrown
error it returns a non-empty string that contains the original message
verbatim; with no collaborator configured the reply is independent of the
input text and embeds the stored mission text when one is set. -/
theorem coachReply_fallback_spec :
    (∀ (u : User) (text err : String),
      0 < (coachReply u text (AIOutcome.failure err)).length ∧
      ∃ p s, coachReply u text (AIOutcome.failure err) = p ++ text ++ s) ∧
    (∀ (u : User) (t1 t2 : String),
      coachReply u t1 AIOutcome.noKey = coachReply u t2 AIOutcome.noKey) ∧
    (∀ (u : User) (text : String), u.goalsText ≠ "" →
      ∃ p, coachReply u text AIOutcome.noKey = p ++ u.goalsText) := by
  refine ⟨?_, fun u t1 t2 => rfl, ?_⟩
  · intro u text err
    constructor
    · have h2 : (0 : Nat) < (", OpenAI failed.\nMessage:\n\"" : String).length := by
        decide
      show 0 < (coachName u ++ ", OpenAI failed.\nMessage:\n\"" ++ text ++
        "\"\nExecute one step now.").length
      simp only [String.length_append]
      omega
    · exact ⟨coachName u ++ ", OpenAI failed.\nMessage:\n\"",
        "\"\nExecute one step now.", rfl⟩
  · intro u text hg
    refine ⟨coachName u ++ ", system offline.\nYour mission:\n", ?_⟩
    show coachName u ++ ", system offline.\nYour mission:\n" ++ coachGoals u = _
    rw [coachGoals, if_pos hg]

/-- C9 (witness): the mission-embedding clause applied to a user with a
set mission text. -/
theorem coachReply_fallback_spec_witness :
    ({ initUser "9" "W" with goalsText := "Train daily" }.goalsText ≠ "") ∧
    ∃ p, coachReply { initUser "9" "W" with goalsText := "Train daily" }
        "hello" AIOutcome.noKey
      = p ++ { initUser "9" "W" with goalsText := "Train daily" }.goalsText :=
  ⟨by decide,
    coachReply_fallback_spec.2.2
      { initUser "9" "W" with goalsText := "Train daily" } "hello" (by decide)⟩

/-! ### C10: ordering chain on the stats counters -/

/-- The ordering chain `streakCurrent ≤ daysWithBoth ≤ totalDays`
(`0 ≤ streakCurrent` holds by the `Nat` embedding of the counters). -/
def StatsChain (u : User) : Prop :=
  u.stats.streakCurrent ≤ u.stats.daysWithBoth ∧
    u.stats.daysWithBoth ≤ u.stats.totalDays

/-- `updateDailyStats` preserves the chain: a full day raises
`streakCurrent` and `daysWithBoth` together with `totalDays`, a partial
day resets the streak while raising `totalDays`. -/
theorem statsChain_updateDailyStats (u : User) (d : String)
    (h : StatsChain u) : StatsChain (updateDailyStats u d) := by
  obtain ⟨h1, h2⟩ := h
  unfold StatsChain updateDailyStats
  cases hg : getLog u.logs d with
  | none => exact ⟨h1, h2⟩
  | some day =>
    dsimp only
    split_ifs with hc hb
    · exact ⟨h1, h2⟩
    · exact ⟨Nat.succ_le_succ h1, Nat.succ_le_succ h2⟩
    · exact ⟨Nat.zero_le _, Nat.le_succ_of_le h2⟩

/-- The stats of a user after `tickUser` are untouched. -/
theorem tickUser_stats (d current : String) (u : User) :
    (tickUser d current u).1.stats = u.stats := by
  unfold tickUser
  by_cases h : u.onboarded = false
  · simp [h]
  · simp only [h, if_false]
    split_ifs <;> rfl

/-- The stats after `onboardingAdvance` are untouched. -/
theorem onboardingAdvance_stats (st : OnbStep) (v : String) (u : User) :
    (onboardingAdvance st v u).1.stats = u.stats := by
  cases st with
  | name => rfl
  | timezone => rfl
  | habits => rfl
  | amTime =>
    unfold onboardingAdvance
    cases hf : formatTimeString v <;> simp [hf]
  | pmTime =>
    unfold onboardingAdvance
    cases hf : formatTimeString v <;> simp [hf]

/-- The user record after `handleMessage` either keeps its stats or is an
`updateDailyStats` image of a record with the same stats (the PM branch). -/
theorem handleMessage_stats (d text ts : String) (ai : AIOutcome) (u : User) :
    (handleMessage d text ts ai u).1.stats = u.stats ∨
      ∃ u1, (handleMessage d text ts ai u).1 = updateDailyStats u1 d ∧
        u1.stats = u.stats := by
  unfold handleMessage
  by_cases hs : jsStartsWith text "/"
  · simp [hs]
  · simp only [hs, Bool.false_eq_true, if_false]
    cases ho : ({ u with logs := ensureLogDay u.logs d } : User).onboardingStep with
    | some st =>
      left
      exact onboardingAdvance_stats st (jsTrim text) _
    | none =>
      cases hp : ({ u with logs := ensureLogDay u.logs d } : User).pending with
      | none => left; rfl
      | some p => cases p with
        | setgoals => left; rfl
        | am => left; rfl
        | pm =>
          right
          refine ⟨_, rfl, rfl⟩

/-- One step preserves the chain, whatever the operation. -/
theorem statsChain_step (op : Op) (u : User) (h : StatsChain u) :
    StatsChain (step op u) := by
  cases op with
  | msg d text ts ai =>
    rcases handleMessage_stats d text ts ai u with he | ⟨u1, he, hs⟩
    · exact ⟨by rw [step, stepE, he]; exact h.1, by rw [step, stepE, he]; exact h.2⟩
    · have : StatsChain u1 := ⟨by rw [hs]; exact h.1, by rw [hs]; exact h.2⟩
      have h2 := statsChain_updateDailyStats u1 d this
      rw [step, stepE, he]
      exact h2
  | tick d current =>
    have he := tickUser_stats d current u
    exact ⟨by rw [step, stepE, he]; exact h.1, by rw [step, stepE, he]; exact h.2⟩
  | start =>
    simp only [step, stepE]
    unfold cmdStart
    split_ifs <;> exact h
  | onboard => exact h
  | setgoals => exact h
  | testAM d =>
    simp only [step, stepE]
    unfold cmdTestAM
    split_ifs <;> exact h
  | testPM d =>
    simp only [step, stepE]
    unfold cmdTestPM
    split_ifs <;> exact h

/-- The chain holds along any operation sequence from a chain state. -/
theorem statsChain_applyOps (ops : List Op) (u : User) (h : StatsChain u) :
    StatsChain (applyOps ops u) := by
  induction ops generalizing u with
  | nil => exact h
  | cons op rest ih => exact ih (step op u) (statsChain_step op u h)

/-- C10: from the default stats of a fresh user, every sequence of
operations keeps `streakCurrent ≤ daysWithBoth ≤ totalDays` (with
`0 ≤ streakCurrent` from the `Nat` counters): each operation either does
not touch the stats or routes through `updateDailyStats`, which raises
`daysWithBoth` and `streakCurrent` together on a full day and raises
`totalDays` on every counted day. -/
theorem statsChain_invariant :
    (∀ chatId firstName : String, StatsChain (initUser chatId firstName)) ∧
    (∀ (op : Op) (u : User), StatsChain u → StatsChain (step op u)) ∧
    (∀ (ops : List Op) (chatId firstName : String),
      StatsChain (applyOps ops (initUser chatId firstName))) :=
  ⟨fun _ _ => ⟨Nat.le_refl 0, Nat.le_refl 0⟩,
   statsChain_step,
   fun ops _ _ => statsChain_applyOps ops _ ⟨Nat.le_refl 0, Nat.le_refl 0⟩⟩

/-- C10 (witness): the step-preservation clause applied to a concrete
tick on a fresh user. -/
theorem statsChain_invariant_witness :
    StatsChain (initUser "1" "A") ∧
    StatsChain (step (Op.tick "2025-01-01" "07:00") (initUser "1" "A")) :=
  ⟨⟨by decide, by decide⟩,
    statsChain_invariant.2.1 (Op.tick "2025-01-01" "07:00") (initUser "1" "A")
      ⟨by decide, by decide⟩⟩

/-! ### C1: flag monotonicity and at-most-once dispatch -/

/-- The ensured day log read back at any key. -/
theorem getD_ensureLogDay (logs : List (String × DayLog)) (d k : String) :
    (getLog (ensureLogDay logs d) k).getD {} = (getLog logs k).getD {} := by
  by_cases h : k = d
  · subst h
    rw [getLog_ensureLogDay_self]
    rfl
  · rw [getLog_ensureLogDay_ne _ _ _ h]

/-- Reading back through a day-log write. -/
theorem getD_setLog (logs : List (String × DayLog)) (d k : String) (v : DayLog) :
    (getLog (setLog logs d v) k).getD {} =
      if k = d then v else (getLog logs k).getD {} := by
  by_cases h : k = d
  · subst h
    rw [getLog_setLog_self, if_pos rfl]
    rfl
  · rw [getLog_setLog_ne _ _ _ _ h, if_neg h]

/-- `updateDailyStats` only latches `_counted`; the prompt flags of every
day log are untouched. -/
theorem updateDailyStats_dayFlags (u : User) (d k : String) :
    (((getLog (updateDailyStats u d).logs k).getD {}).amPromptSent
        = ((getLog u.logs k).getD {}).amPromptSent) ∧
    (((getLog (updateDailyStats u d).logs k).getD {}).pmPromptSent
        = ((getLog u.logs k).getD {}).pmPromptSent) := by
  unfold updateDailyStats
  cases hg : getLog u.logs d with
  | none => exact ⟨rfl, rfl⟩
  | some day =>
    dsimp only
    split_ifs with hc hb
    · exact ⟨rfl, rfl⟩
    · rw [getD_setLog]
      by_cases hk : k = d
      · subst hk
        rw [if_pos rfl, hg]
        exact ⟨rfl, rfl⟩
      · rw [if_neg hk]
        exact ⟨rfl, rfl⟩
    · rw [getD_setLog]
      by_cases hk : k = d
      · subst hk
        rw [if_pos rfl, hg]
        exact ⟨rfl, rfl⟩
      · rw [if_neg hk]
        exact ⟨rfl, rfl⟩

/-- `onboardingAdvance` never touches the day logs. -/
theorem onboardingAdvance_logs (st : OnbStep) (v : String) (u : User) :
    (onboardingAdvance st v u).1.logs = u.logs := by
  cases st with
  | name => rfl
  | timezone => rfl
  | habits => rfl
  | amTime =>
    unfold onboardingAdvance
    cases hf : formatTimeString v <;> simp [hf]
  | pmTime =>
    unfold onboardingAdvance
    cases hf : formatTimeString v <;> simp [hf]

/-- The message router never changes a prompt-sent flag in either
direction: replies write only the `am`/`pm` entries and the `_counted`
latch. -/
theorem handleMessage_dayFlags (d text ts : String) (ai : AIOutcome) (u : User)
    (k : String) :
    flagAM (handleMessage d text ts ai u).1 k = flagAM u k ∧
    flagPM (handleMessage d text ts ai u).1 k = flagPM u k := by
  unfold handleMessage flagAM flagPM
  by_cases hs : jsStartsWith text "/"
  · simp [hs]
  · simp only [hs, Bool.false_eq_true, if_false]
    cases ho : ({ u with logs := ensureLogDay u.logs d } : User).onboardingStep with
    | some st =>
      dsimp only
      rw [onboardingAdvance_logs]
      dsimp only
      rw [getD_ensureLogDay]
      exact ⟨rfl, rfl⟩
    | none =>
      cases hp : ({ u with logs := ensureLogDay u.logs d } : User).pending with
      | none =>
        dsimp only
        rw [getD_ensureLogDay]
        exact ⟨rfl, rfl⟩
      | some p => cases p with
        | setgoals =>
          dsimp only
          rw [getD_ensureLogDay]
          exact ⟨rfl, rfl⟩
        | am =>
          dsimp only
          rw [getD_setLog]
          by_cases hk : k = d
          · subst hk
            rw [if_pos rfl]
            dsimp only
            rw [getD_ensureLogDay]
            exact ⟨rfl, rfl⟩
          · rw [if_neg hk, getD_ensureLogDay]
            exact ⟨rfl, rfl⟩
        | pm =>
          dsimp only
          refine ⟨?_, ?_⟩
          · rw [(updateDailyStats_dayFlags _ d k).1, getD_setLog]
            by_cases hk : k = d
            · subst hk
              rw [if_pos rfl]
              dsimp only
              rw [getD_ensureLogDay]
            · rw [if_neg hk, getD_ensureLogDay]
          · rw [(updateDailyStats_dayFlags _ d k).2, getD_setLog]
            by_cases hk : k = d
            · subst hk
              rw [if_pos rfl]
              dsimp only
              rw [getD_ensureLogDay]
            · rw [if_neg hk, getD_ensureLogDay]

/-- A minute tick never clears a prompt-sent flag, for any date key. -/
theorem tickUser_flags_mono (d c k : String) (u : User) :
    (flagAM u k = true → flagAM (tickUser d c u).1 k = true) ∧
    (flagPM u k = true → flagPM (tickUser d c u).1 k = true) := by
  unfold tickUser flagAM flagPM
  by_cases h1 : u.onboarded = false
  · simp [h1]
  · rw [if_neg h1]
    dsimp only
    split_ifs with hA hP hP <;> by_cases hk : k = d <;>
      simp_all [getD_setLog, getD_ensureLogDay]

/-- AM-send counting distributes over trace concatenation. -/
theorem amSendCount_append (a b : List Effect) :
    amSendCount (a ++ b) = amSendCount a + amSendCount b := by
  simp [amSendCount, List.filter_append]

/-- A tick at the user's AM time with a clear flag sends the AM prompt
exactly once and latches the flag. -/
theorem tickUser_fires (d : String) (u : User) (ho : u.onboarded = true)
    (hf : flagAM u d = false) :
    amSendCount (tickUser d u.amTime u).2 = 1 ∧
      flagAM (tickUser d u.amTime u).1 d = true := by
  have hne : PM_PROMPT ≠ AM_PROMPT := by decide
  have hday1 : ((getLog (ensureLogDay u.logs d) d).getD {}).amPromptSent = false := by
    rw [getD_ensureLogDay]
    exact hf
  unfold tickUser
  rw [if_neg (by simp [ho])]
  dsimp only
  split_ifs with hA hP hP
  · constructor
    · simp [amSendCount, Effect.isAMSend, hne]
    · rw [flagAM]
      simp [getD_setLog]
  · constructor
    · simp [amSendCount, Effect.isAMSend]
    · rw [flagAM]
      simp [getD_setLog]
  · exact absurd ⟨rfl, hday1⟩ hA
  · exact absurd ⟨rfl, hday1⟩ hA

/-- A tick on a day whose AM flag is already set sends no AM prompt and
keeps the flag set. -/
theorem tickUser_noAM (d c : String) (u : User) (hf : flagAM u d = true) :
    amSendCount (tickUser d c u).2 = 0 ∧ flagAM (tickUser d c u).1 d = true := by
  have hne : PM_PROMPT ≠ AM_PROMPT := by decide
  have hf' : ((getLog u.logs d).getD ({} : DayLog)).amPromptSent = true := hf
  have hday1 : ((getLog (ensureLogDay u.logs d) d).getD {}).amPromptSent = true := by
    rw [getD_ensureLogDay]
    exact hf
  unfold tickUser
  by_cases h1 : u.onboarded = false
  · rw [if_pos h1]
    exact ⟨rfl, hf⟩
  · rw [if_neg h1]
    dsimp only
    split_ifs with hA hP hP
    · exact absurd hA.2 (by simp [hday1])
    · exact absurd hA.2 (by simp [hday1])
    · constructor
      · simp [amSendCount, Effect.isAMSend, hne]
      · rw [flagAM]
        simp [getD_setLog, getD_ensureLogDay, hf']
    · constructor
      · simp [amSendCount]
      · rw [flagAM]
        simp [getD_ensureLogDay, hf']

/-- Once the AM flag is set, any number of further ticks sends no AM
prompt and keeps the flag set. -/
theorem sim_noAM (n : Nat) (d c : String) (u : User) (hf : flagAM u d = true) :
    amSendCount (sim n d c u).2 = 0 ∧ flagAM (sim n d c u).1 d = true := by
  induction n generalizing u with
  | zero => exact ⟨rfl, hf⟩
  | succ n ih =>
    have h1 := tickUser_noAM d c u hf
    have h2 := ih (tickUser d c u).1 h1.2
    unfold sim
    dsimp only
    exact ⟨by rw [amSendCount_append, h1.1, h2.1], h2.2⟩

/-- From a clear flag, `n + 1` ticks at the AM time produce exactly one
AM send. -/
theorem sim_succ_oneAM (n : Nat) (d : String) (u : User)
    (ho : u.onboarded = true) (hf : flagAM u d = false) :
    amSendCount (sim (n + 1) d u.amTime u).2 = 1 := by
  have h1 := tickUser_fires d u ho hf
  have h2 := sim_noAM n d u.amTime (tickUser d u.amTime u).1 h1.2
  unfold sim
  dsimp only
  rw [amSendCount_append, h1.1, h2.1]

/-- C1: the `amPromptSent`/`pmPromptSent` flags are monotone — no
operation (message routing, scheduler tick, or command) ever clears a set
flag for any date — and, for an onboarded user whose AM flag for the date
is clear, 120 consecutive ticks at exactly the user's AM time produce
exactly one outbound AM-prompt send. -/
theorem promptFlags_monotone_atMostOnce :
    (∀ (op : Op) (u : User) (k : String),
      (flagAM u k = true → flagAM (step op u) k = true) ∧
      (flagPM u k = true → flagPM (step op u) k = true)) ∧
    (∀ (d : String) (u : User), u.onboarded = true → flagAM u d = false →
      amSendCount (sim 120 d u.amTime u).2 = 1) := by
  constructor
  · intro op u k
    cases op with
    | msg d text ts ai =>
      have h := handleMessage_dayFlags d text ts ai u k
      constructor
      · intro hf
        simp only [step, stepE]
        rw [h.1]
        exact hf
      · intro hf
        simp only [step, stepE]
        rw [h.2]
        exact hf
    | tick d current =>
      have h := tickUser_flags_mono d current k u
      constructor
      · intro hf
        simp only [step, stepE]
        exact h.1 hf
      · intro hf
        simp only [step, stepE]
        exact h.2 hf
    | start =>
      simp only [step, stepE]
      unfold cmdStart
      split_ifs <;> exact ⟨id, id⟩
    | onboard => exact ⟨id, id⟩
    | setgoals => exact ⟨id, id⟩
    | testAM d =>
      simp only [step, stepE]
      unfold cmdTestAM
      split_ifs with h1
      · exact ⟨id, id⟩
      · constructor <;> intro hf <;> by_cases hk : k = d <;>
          simp_all [flagAM, flagPM, getD_setLog, getD_ensureLogDay]
    | testPM d =>
      simp only [step, stepE]
      unfold cmdTestPM
      split_ifs with h1
      · exact ⟨id, id⟩
      · constructor <;> intro hf <;> by_cases hk : k = d <;>
          simp_all [flagAM, flagPM, getD_setLog, getD_ensureLogDay]
  · intro d u ho hf
    have h120 : (120 : Nat) = 119 + 1 := by norm_num
    rw [h120]
    exact sim_succ_oneAM 119 d u ho hf

/-- An onboarded user with clear flags for the test date. -/
def wUser : User := { initUser "7" "W" with onboarded := true, name := "W" }

/-- The same user with the AM flag of the test date already set. -/
def wUserFlag : User :=
  { wUser with logs := [("2025-02-01", { amPromptSent := true })] }

/-- C1 (witness): monotonicity applied to one concrete tick on a set
flag, and the 120-tick dispatch simulation on a fresh onboarded user. -/
theorem promptFlags_monotone_atMostOnce_witness :
    (flagAM wUserFlag "2025-02-01" = true ∧
      flagAM (step (Op.tick "2025-02-01" "12:00") wUserFlag) "2025-02-01" = true) ∧
    (wUser.onboarded = true ∧ flagAM wUser "2025-02-01" = false ∧
      amSendCount (sim 120 "2025-02-01" wUser.amTime wUser).2 = 1) :=
  ⟨⟨by decide,
    (promptFlags_monotone_atMostOnce.1 (Op.tick "2025-02-01" "12:00")
      wUserFlag "2025-02-01").1 (by decide)⟩,
   ⟨rfl, by decide,
    promptFlags_monotone_atMostOnce.2 "2025-02-01" wUser rfl (by decide)⟩⟩

/-! ### C4: onboarding/pending exclusivity -/

/-- The claimed exclusivity: `onboardingStep` and `pendingIntent` are not
simultaneously non-none. -/
def ExclusiveIntent (u : User) : Prop :=
  u.onboardingStep = none ∨ u.pending = none

/-- An onboarded user has no active onboarding step. -/
def OnboardedNoStep (u : User) : Prop :=
  u.onboarded = true → u.onboardingStep = none

/-- `updateDailyStats` only changes `stats` and `logs`. -/
theorem updateDailyStats_pending (w : User) (d : String) :
    (updateDailyStats w d).pending = w.pending := by
  unfold updateDailyStats
  cases hg : getLog w.logs d with
  | none => rfl
  | some day =>
    dsimp only
    split_ifs <;> rfl

/-- `updateDailyStats` only changes `stats` and `logs` (step field). -/
theorem updateDailyStats_onbStep (w : User) (d : String) :
    (updateDailyStats w d).onboardingStep = w.onboardingStep := by
  unfold updateDailyStats
  cases hg : getLog w.logs d with
  | none => rfl
  | some day =>
    dsimp only
    split_ifs <;> rfl

/-- The tick never changes `onboarded` or `onboardingStep`. -/
theorem tickUser_onb (d current : String) (u : User) :
    (tickUser d current u).1.onboarded = u.onboarded ∧
      (tickUser d current u).1.onboardingStep = u.onboardingStep := by
  unfold tickUser
  by_cases h1 : u.onboarded = false
  · simp [h1]
  · rw [if_neg h1]
    dsimp only
    split_ifs <;> exact ⟨rfl, rfl⟩

/-- C4 (counterexample): `/setgoals` followed by `/onboard` on a fresh
user leaves `pending = "setgoals"` AND `onboardingStep = "name"` — the
command handlers in bot.js do not clear the other field, so the claimed
invariant fails on a reachable state. -/
theorem exclusivity_cex :
    (applyOps [Op.setgoals, Op.onboard] (initUser "3" "B")).onboardingStep ≠ none ∧
    (applyOps [Op.setgoals, Op.onboard] (initUser "3" "B")).pending ≠ none := by
  decide

/-- `handleMessage` preserves `OnboardedNoStep`. -/
theorem handleMessage_onbStep (d text ts : String) (ai : AIOutcome) (u : User)
    (hOS : OnboardedNoStep u) : OnboardedNoStep (handleMessage d text ts ai u).1 := by
  unfold handleMessage
  by_cases hs : jsStartsWith text "/"
  · simpa [hs] using hOS
  · simp only [hs, Bool.false_eq_true, if_false]
    cases ho : ({ u with logs := ensureLogDay u.logs d } : User).onboardingStep with
    | some st =>
      have ho' : u.onboardingStep = some st := ho
      have hob : u.onboarded = false := by
        cases hb : u.onboarded
        · rfl
        · rw [hOS hb] at ho'
          cases ho'
      dsimp only
      cases st with
      | name => intro hcon; exact absurd (show u.onboarded = true from hcon) (by simp [hob])
      | timezone => intro hcon; exact absurd (show u.onboarded = true from hcon) (by simp [hob])
      | habits => intro hcon; exact absurd (show u.onboarded = true from hcon) (by simp [hob])
      | amTime =>
        unfold onboardingAdvance
        cases hf : formatTimeString (jsTrim text) with
        | none =>
          intro hcon
          exact absurd (show u.onboarded = true from hcon) (by simp [hob])
        | some t =>
          intro hcon
          exact absurd (show u.onboarded = true from hcon) (by simp [hob])
      | pmTime =>
        unfold onboardingAdvance
        cases hf : formatTimeString (jsTrim text) with
        | none =>
          intro hcon
          exact absurd (show u.onboarded = true from hcon) (by simp [hob])
        | some t => intro _; rfl
    | none =>
      cases hp : ({ u with logs := ensureLogDay u.logs d } : User).pending with
      | none => intro _; rfl
      | some p => cases p with
        | setgoals => intro _; rfl
        | am => intro _; rfl
        | pm =>
          intro _
          dsimp only
          rw [updateDailyStats_onbStep]

/-- Every operation preserves `OnboardedNoStep`. -/
theorem step_onbStep (op : Op) (u : User) (hOS : OnboardedNoStep u) :
    OnboardedNoStep (step op u) := by
  cases op with
  | msg d text ts ai => exact handleMessage_onbStep d text ts ai u hOS
  | tick d current =>
    intro hcon
    have h := tickUser_onb d current u
    simp only [step, stepE] at hcon ⊢
    rw [h.2]
    exact hOS (h.1 ▸ hcon)
  | start =>
    simp only [step, stepE]
    unfold cmdStart
    split_ifs with h1
    · exact hOS
    · intro hcon
      exact absurd (show u.onboarded = true from hcon) h1
  | onboard =>
    intro hcon
    exact absurd (show false = true from hcon) (by simp)
  | setgoals => exact hOS
  | testAM d =>
    simp only [step, stepE]
    unfold cmdTestAM
    split_ifs with h1
    · exact hOS
    · intro hcon
      exact hOS hcon
  | testPM d =>
    simp only [step, stepE]
    unfold cmdTestPM
    split_ifs with h1
    · exact hOS
    · intro hcon
      exact hOS hcon

/-- The message router preserves exclusivity. -/
theorem handleMessage_excl (d text ts : String) (ai : AIOutcome) (u : User)
    (hE : ExclusiveIntent u) :
    ExclusiveIntent (handleMessage d text ts ai u).1 := by
  unfold handleMessage
  by_cases hs : jsStartsWith text "/"
  · simpa [hs] using hE
  · simp only [hs, Bool.false_eq_true, if_false]
    cases ho : ({ u with logs := ensureLogDay u.logs d } : User).onboardingStep with
    | some st =>
      have ho' : u.onboardingStep = some st := ho
      have hp : u.pending = none := by
        rcases hE with h | h
        · rw [ho'] at h
          cases h
        · exact h
      dsimp only
      cases st with
      | name => right; exact hp
      | timezone => right; exact hp
      | habits => right; exact hp
      | amTime =>
        unfold onboardingAdvance
        cases hf : formatTimeString (jsTrim text) with
        | none => right; exact hp
        | some t => right; exact hp
      | pmTime =>
        unfold onboardingAdvance
        cases hf : formatTimeString (jsTrim text) with
        | none => right; exact hp
        | some t => left; rfl
    | none =>
      cases hp : ({ u with logs := ensureLogDay u.logs d } : User).pending with
      | none => left; rfl
      | some p => cases p with
        | setgoals => right; rfl
        | am => right; rfl
        | pm =>
          right
          dsimp only
          rw [updateDailyStats_pending]

/-- The minute tick preserves exclusivity for well-formed users: it only
fires for onboarded users, whose `onboardingStep` is none. -/
theorem tickUser_excl (d current : String) (u : User)
    (hOS : OnboardedNoStep u) (hE : ExclusiveIntent u) :
    ExclusiveIntent (tickUser d current u).1 := by
  unfold tickUser
  by_cases h1 : u.onboarded = false
  · simpa [h1] using hE
  · rw [if_neg h1]
    have hstep : u.onboardingStep = none := by
      apply hOS
      cases hb : u.onboarded
      · exact absurd hb h1
      · rfl
    dsimp only
    split_ifs <;> left <;> exact hstep

/-- C4 (amended): the exclusivity of `onboardingStep` and `pendingIntent`
is preserved by free-text message routing, by scheduler firings, and by
the manual prompt triggers (each prompt fires only for onboarded users,
who have no active onboarding step, and onboarding input never sets an
intent) — but it is NOT an invariant of the full command surface: bot.js
`/setgoals` does not check `onboardingStep` and `/onboard`/`/start` do not
clear `pending`, so command interleavings such as `/setgoals` then
`/onboard` (the counterexample) reach states with both fields set. -/
theorem exclusivity_amended :
    (∀ (op : Op) (u : User), OnboardedNoStep u → OnboardedNoStep (step op u)) ∧
    (∀ (d text ts : String) (ai : AIOutcome) (u : User),
      ExclusiveIntent u → ExclusiveIntent (step (Op.msg d text ts ai) u)) ∧
    (∀ (d current : String) (u : User), OnboardedNoStep u → ExclusiveIntent u →
      ExclusiveIntent (step (Op.tick d current) u)) ∧
    (∀ (d : String) (u : User), OnboardedNoStep u → ExclusiveIntent u →
      ExclusiveIntent (step (Op.testAM d) u)) ∧
    (∀ (d : String) (u : User), OnboardedNoStep u → ExclusiveIntent u →
      ExclusiveIntent (step (Op.testPM d) u)) := by
  refine ⟨step_onbStep, ?_, ?_, ?_, ?_⟩
  · intro d text ts ai u hE
    exact handleMessage_excl d text ts ai u hE
  · intro d current u hOS hE
    exact tickUser_excl d current u hOS hE
  · intro d u hOS hE
    simp only [step, stepE]
    unfold cmdTestAM
    split_ifs with h1
    · exact hE
    · left
      apply hOS
      cases hb : u.onboarded
      · exact absurd hb h1
      · rfl
  · intro d u hOS hE
    simp only [step, stepE]
    unfold cmdTestPM
    split_ifs with h1
    · exact hE
    · left
      apply hOS
      cases hb : u.onboarded
      · exact absurd hb h1
      · rfl

/-- C4 (witness): the tick-preservation clause at a concrete onboarded
user with a pending intent. -/
theorem exclusivity_amended_witness :
    (OnboardedNoStep { wUser with pending := some Pending.am } ∧
      ExclusiveIntent { wUser with pending := some Pending.am }) ∧
    ExclusiveIntent
      (step (Op.tick "2025-02-01" "07:00") { wUser with pending := some Pending.am }) :=
  ⟨⟨fun _ => rfl, Or.inl rfl⟩,
    exclusivity_amended.2.2.1 "2025-02-01" "07:00"
      { wUser with pending := some Pending.am } (fun _ => rfl) (Or.inl rfl)⟩

/-! ### C5: last-scheduled-wins for pending intents -/

/-- Tick configuration fields are untouched by a tick. -/
theorem tickUser_times (d c : String) (u : User) :
    (tickUser d c u).1.amTime = u.amTime ∧ (tickUser d c u).1.pmTime = u.pmTime := by
  unfold tickUser
  by_cases h1 : u.onboarded = false
  · simp [h1]
  · rw [if_neg h1]
    dsimp only
    split_ifs <;> exact ⟨rfl, rfl⟩

/-- A tick never changes the stored check-in entries of any day log. -/
theorem tickUser_dayEntries (d c k : String) (u : User) :
    (((getLog (tickUser d c u).1.logs k).getD {}).am
        = ((getLog u.logs k).getD {}).am) ∧
    (((getLog (tickUser d c u).1.logs k).getD {}).pm
        = ((getLog u.logs k).getD {}).pm) := by
  unfold tickUser
  by_cases h1 : u.onboarded = false
  · simp [h1]
  · rw [if_neg h1]
    dsimp only
    split_ifs <;> by_cases hk : k = d <;>
      simp_all [getD_setLog, getD_ensureLogDay]

/-- `updateDailyStats` never changes the stored check-in entries. -/
theorem updateDailyStats_dayEntries (u : User) (d k : String) :
    (((getLog (updateDailyStats u d).logs k).getD {}).am
        = ((getLog u.logs k).getD {}).am) ∧
    (((getLog (updateDailyStats u d).logs k).getD {}).pm
        = ((getLog u.logs k).getD {}).pm) := by
  unfold updateDailyStats
  cases hg : getLog u.logs d with
  | none => exact ⟨rfl, rfl⟩
  | some day =>
    dsimp only
    split_ifs with hc hb
    · exact ⟨rfl, rfl⟩
    · rw [getD_setLog]
      by_cases hk : k = d
      · subst hk
        rw [if_pos rfl, hg]
        exact ⟨rfl, rfl⟩
      · rw [if_neg hk]
        exact ⟨rfl, rfl⟩
    · rw [getD_setLog]
      by_cases hk : k = d
      · subst hk
        rw [if_pos rfl, hg]
        exact ⟨rfl, rfl⟩
      · rw [if_neg hk]
        exact ⟨rfl, rfl⟩

/-- A tick at the user's PM time with a clear PM flag ends with
`pending = "pm"` (the PM check runs after the AM check, so it wins) and
latches the PM flag. -/
theorem tickUser_pm_fire (d c : String) (u : User) (ho : u.onboarded = true)
    (hc : c = u.pmTime) (hf : flagPM u d = false) :
    (tickUser d c u).1.pending = some Pending.pm ∧
      flagPM (tickUser d c u).1 d = true := by
  have hf' : ((getLog u.logs d).getD ({} : DayLog)).pmPromptSent = false := hf
  have hday1 : ((getLog (ensureLogDay u.logs d) d).getD {}).pmPromptSent = false := by
    rw [getD_ensureLogDay]
    exact hf
  unfold tickUser
  rw [if_neg (by simp [ho])]
  dsimp only
  split_ifs with hA hP hP
  · constructor
    · rfl
    · rw [flagPM]
      simp [getD_setLog]
  · exact absurd ⟨hc, by simp [getD_setLog, hday1]⟩ hP
  · constructor
    · rfl
    · rw [flagPM]
      simp [getD_setLog]
  · exact absurd ⟨hc, hday1⟩ hP

/-- A tick on a day with both flags already set changes nothing about the
pending intent. -/
theorem tickUser_idle (d c : String) (u : User) (hA : flagAM u d = true)
    (hP : flagPM u d = true) : (tickUser d c u).1.pending = u.pending := by
  have hA' : ((getLog (ensureLogDay u.logs d) d).getD {}).amPromptSent = true := by
    rw [getD_ensureLogDay]
    exact hA
  have hP' : ((getLog (ensureLogDay u.logs d) d).getD {}).pmPromptSent = true := by
    rw [getD_ensureLogDay]
    exact hP
  unfold tickUser
  by_cases h1 : u.onboarded = false
  · simp [h1]
  · rw [if_neg h1]
    dsimp only
    split_ifs with hAc hPc hPc
    · exact absurd hAc.2 (by simp [hA'])
    · exact absurd hAc.2 (by simp [hA'])
    · exact absurd hPc.2 (by simp [hP'])
    · rfl

/-- A tick at a time other than the user's PM time leaves the PM flag of
the day unchanged. -/
theorem tickUser_flagPM_of_ne (d c : String) (u : User) (hne : c ≠ u.pmTime) :
    flagPM (tickUser d c u).1 d = flagPM u d := by
  unfold tickUser flagPM
  by_cases h1 : u.onboarded = false
  · simp [h1]
  · rw [if_neg h1]
    dsimp only
    split_ifs with hA hP hP
    · exact absurd hP.1 hne
    · rw [getD_setLog]
      simp [getD_ensureLogDay]
    · exact absurd hP.1 hne
    · rw [getD_ensureLogDay]

/-- The PM reply branch of the router: with no onboarding step and
`pending = "pm"`, the reply is stored as the PM entry of today`s log, the
intent is cleared, and the day is closed through `updateDailyStats`. -/
theorem handleMessage_pm (d text ts : String) (ai : AIOutcome) (u : User)
    (hstep : u.onboardingStep = none) (hp : u.pending = some Pending.pm)
    (hs : jsStartsWith text "/" = false) :
    (handleMessage d text ts ai u).1 =
      updateDailyStats
        { u with
          logs := setLog (ensureLogDay u.logs d) d
            { (getLog (ensureLogDay u.logs d) d).getD {} with
              pm := some ⟨text, ts⟩ },
          pending := none } d := by
  unfold handleMessage
  rw [if_neg (by simp [hs])]
  dsimp only
  rw [hstep]
  dsimp only
  rw [hp]

/-- The AM-then-PM firing scenario: one tick at the user's AM time, then
one tick at the (unchanged) PM time. -/
def amThenPm (d : String) (u : User) : User :=
  (tickUser d (tickUser d u.amTime u).1.pmTime (tickUser d u.amTime u).1).1

/-- C5: firing the AM prompt and then the PM prompt before any reply
leaves `pending = "pm"` only (last-scheduled-wins), and the next free-text
reply is stored as that date`s PM entry while the AM entry is untouched. -/
theorem lastScheduledWins (d text ts : String) (ai : AIOutcome) (u : User)
    (ho : u.onboarded = true) (hstep : u.onboardingStep = none)
    (hA : flagAM u d = false) (hP : flagPM u d = false)
    (hs : jsStartsWith text "/" = false) :
    (amThenPm d u).pending = some Pending.pm ∧
    ((getLog (handleMessage d text ts ai (amThenPm d u)).1.logs d).getD {}).pm
        = some ⟨text, ts⟩ ∧
    ((getLog (handleMessage d text ts ai (amThenPm d u)).1.logs d).getD {}).am
        = ((getLog u.logs d).getD {}).am := by
  have hu1fire := tickUser_fires d u ho hA
  have h1onb : (tickUser d u.amTime u).1.onboarded = true := by
    rw [(tickUser_onb d u.amTime u).1]
    exact ho
  have h1step : (tickUser d u.amTime u).1.onboardingStep = none := by
    rw [(tickUser_onb d u.amTime u).2]
    exact hstep
  have h1pm : (tickUser d u.amTime u).1.pmTime = u.pmTime :=
    (tickUser_times d u.amTime u).2
  have hpend2 : (amThenPm d u).pending = some Pending.pm := by
    by_cases hEq : u.amTime = u.pmTime
    · have hfire := tickUser_pm_fire d u.amTime u ho hEq hP
      unfold amThenPm
      rw [tickUser_idle _ _ _ hu1fire.2 hfire.2]
      exact hfire.1
    · have h1pmflag : flagPM (tickUser d u.amTime u).1 d = false := by
        rw [tickUser_flagPM_of_ne d u.amTime u hEq]
        exact hP
      exact (tickUser_pm_fire d (tickUser d u.amTime u).1.pmTime
        (tickUser d u.amTime u).1 h1onb rfl h1pmflag).1
  have h2step : (amThenPm d u).onboardingStep = none := by
    unfold amThenPm
    rw [(tickUser_onb _ _ _).2]
    exact h1step
  have hrw := handleMessage_pm d text ts ai (amThenPm d u) h2step hpend2 hs
  refine ⟨hpend2, ?_, ?_⟩
  · rw [hrw, (updateDailyStats_dayEntries _ d d).2]
    dsimp only
    rw [getD_setLog, if_pos rfl]
  · rw [hrw, (updateDailyStats_dayEntries _ d d).1]
    dsimp only
    rw [getD_setLog, if_pos rfl]
    dsimp only
    rw [getD_ensureLogDay]
    unfold amThenPm
    rw [(tickUser_dayEntries d _ d _).1, (tickUser_dayEntries d _ d _).1]

/-- C5 (witness): the scenario on a concrete onboarded user. -/
theorem lastScheduledWins_witness :
    (wUser.onboarded = true ∧ wUser.onboardingStep = none ∧
      flagAM wUser "2025-02-01" = false ∧ flagPM wUser "2025-02-01" = false ∧
      jsStartsWith "done" "/" = false) ∧
    ((amThenPm "2025-02-01" wUser).pending = some Pending.pm ∧
    ((getLog (handleMessage "2025-02-01" "done" "t9" AIOutcome.noKey
        (amThenPm "2025-02-01" wUser)).1.logs "2025-02-01").getD {}).pm
        = some ⟨"done", "t9"⟩ ∧
    ((getLog (handleMessage "2025-02-01" "done" "t9" AIOutcome.noKey
        (amThenPm "2025-02-01" wUser)).1.logs "2025-02-01").getD {}).am
        = ((getLog wUser.logs "2025-02-01").getD {}).am) :=
  ⟨⟨rfl, rfl, by decide, by decide, by decide⟩,
    lastScheduledWins "2025-02-01" "done" "t9" AIOutcome.noKey wUser
      rfl rfl (by decide) (by decide) (by decide)⟩

/-! ### C8: ordering of durable saves and prompt sends -/

/-- Every effect a per-user tick emits is a chat send (the tick-level save
is appended only at the end of `tickAll`). -/
theorem tickUser_trace_sends (d c : String) (u : User) :
    ∀ e ∈ (tickUser d c u).2, e.isSend = true := by
  unfold tickUser
  by_cases h1 : u.onboarded = false
  · simp [h1]
  · rw [if_neg h1]
    dsimp only
    split_ifs <;> intro e he <;> simp at he <;>
      rcases he with rfl | rfl <;> rfl

/-- `savePrecedesSend` ignores a send-only prefix. -/
theorem savePrecedesSend_sends (l r : List Effect)
    (h : ∀ e ∈ l, e.isSend = true) :
    savePrecedesSend (l ++ r) = savePrecedesSend r := by
  induction l with
  | nil => rfl
  | cons e l' ih =>
    cases e with
    | save s =>
      exact absurd (h (Effect.save s) (List.mem_cons_self _ _))
        (by simp [Effect.isSend])
    | send c t =>
      show savePrecedesSend (l' ++ r) = savePrecedesSend r
      exact ih fun e he => h e (List.mem_cons_of_mem _ he)

/-- C8 (counterexample): in the minute tick, the AM prompt send is the
FIRST effect and the sole durable save comes after it; likewise, in
`/test_am` no save carrying the fired-AM mutation precedes the prompt
send. The claimed write-then-notify ordering fails on the prompt paths. -/
theorem writeThenNotify_cex :
    mutSavePrecedesAMSend (tickAll "2025-02-01" "07:00" [wUser]).2 = false ∧
    (tickAll "2025-02-01" "07:00" [wUser]).2.head?
      = some (Effect.send "7" AM_PROMPT) ∧
    mutSavePrecedesAMSend (cmdTestAM "2025-02-01" wUser).2 = false := by
  decide

/-- C8 (amended): the code is notify-then-write on the prompt paths: a
scheduler tick emits all prompt sends first and the (single, end-of-tick)
save of the mutated user table after them, and `/test_am` initiates the
prompt send before the save of the mutated state — the only save
preceding that send is the `ensureUser` save of the pre-mutation state. -/
theorem notifyThenWrite :
    (∀ (d current : String) (us : List User),
      savePrecedesSend (tickAll d current us).2 = false) ∧
    (∀ (d : String) (u : User), u.pending = none →
      mutSavePrecedesAMSend (cmdTestAM d u).2 = false) ∧
    (∀ (d : String) (u : User), u.onboarded = true →
      ∃ u', cmdTestAM d u
          = (u', [Effect.save [u], Effect.send u.chatId AM_PROMPT,
                  Effect.save [u']]) ∧
        u'.pending = some Pending.am ∧ flagAM u' d = true) := by
  refine ⟨?_, ?_, ?_⟩
  · intro d current us
    unfold tickAll
    dsimp only
    have hsends : ∀ e ∈ ((us.map (tickUser d current)).map Prod.snd).flatten,
        e.isSend = true := by
      intro e he
      rw [List.mem_flatten] at he
      obtain ⟨l, hl, hel⟩ := he
      rw [List.mem_map] at hl
      obtain ⟨pr, hpr, rfl⟩ := hl
      rw [List.mem_map] at hpr
      obtain ⟨v, _, rfl⟩ := hpr
      exact tickUser_trace_sends d current v _ hel
    split_ifs with hempty
    · rw [savePrecedesSend_sends _ _ hsends]
      rfl
    · rw [savePrecedesSend_sends _ _ hsends]
      simp [savePrecedesSend]
  · intro d u hp
    have hne : ¬(("Complete onboarding first." : String) = AM_PROMPT) := by decide
    unfold cmdTestAM
    split_ifs with h1
    · simp [mutSavePrecedesAMSend, Effect.isMutSave, Effect.isAMSend, hp, hne]
    · simp [mutSavePrecedesAMSend, Effect.isMutSave, Effect.isAMSend, hp]
  · intro d u h1
    unfold cmdTestAM
    rw [if_neg (by simp [h1])]
    refine ⟨_, rfl, rfl, ?_⟩
    rw [flagAM]
    simp [getD_setLog]

/-- C8 (witness): the `/test_am` trace shape on a concrete onboarded
user. -/
theorem notifyThenWrite_witness :
    wUser.onboarded = true ∧
    ∃ u', cmdTestAM "2025-02-01" wUser
        = (u', [Effect.save [wUser], Effect.send wUser.chatId AM_PROMPT,
                Effect.save [u']]) ∧
      u'.pending = some Pending.am ∧ flagAM u' "2025-02-01" = true :=
  ⟨rfl, notifyThenWrite.2.2 "2025-02-01" wUser rfl⟩

/-! ### C7: the weekly snapshot job -/

/-- Number of window dates with any day log. -/
def weeklyTotal (dates : List String) (logs : List (String × DayLog)) : Nat :=
  dates.countP (isLoggedOn logs)

/-- Number of window dates with both entries. -/
def weeklyFull (dates : List String) (logs : List (String × DayLog)) : Nat :=
  dates.countP (isFullOn logs)

/-- A full day in the window is in particular a logged day. -/
theorem weeklyFull_le_total (dates : List String)
    (logs : List (String × DayLog)) :
    weeklyFull dates logs ≤ weeklyTotal dates logs := by
  induction dates with
  | nil => simp [weeklyFull, weeklyTotal]
  | cons a l ih =>
    unfold weeklyFull weeklyTotal at *
    rw [List.countP_cons, List.countP_cons]
    apply Nat.add_le_add ih
    split_ifs with h1 h2
    · exact Nat.le_refl 1
    · exfalso
      apply h2
      unfold isFullOn at h1
      unfold isLoggedOn
      cases hg : getLog logs a with
      | none => rw [hg] at h1; cases h1
      | some day => rfl
    · exact Nat.zero_le _
    · exact Nat.le_refl 0

/-- The rounding characterization of the execution rate: for a non-empty
window it is the half-up rounding of `100 * full / total`. -/
theorem executionRate_bounds (full total : Nat) (h : total ≠ 0) :
    2 * total * executionRate full total ≤ 200 * full + total ∧
      200 * full + total < 2 * total * executionRate full total + 2 * total := by
  unfold executionRate
  rw [if_neg h]
  constructor
  · rw [Nat.mul_comm]
    exact Nat.div_mul_le_self _ _
  · have h1 := Nat.div_add_mod (200 * full + total) (2 * total)
    have h2 : (200 * full + total) % (2 * total) < 2 * total :=
      Nat.mod_lt _ (by omega)
    calc 200 * full + total
        = 2 * total * ((200 * full + total) / (2 * total)) +
            (200 * full + total) % (2 * total) := h1.symm
      _ < 2 * total * ((200 * full + total) / (2 * total)) + 2 * total :=
          Nat.add_lt_add_left h2 _

/-- What the per-user weekly body guarantees for an onboarded user:
exactly one delivery, with the counts and the rounded rate of the window;
the snapshot appended under the week key with those fields; every other
week key untouched; and no mutation of the logs or the streak stats. -/
def WeeklyStepSpec (dates : List String) (todayStr now : String) (u : User) :
    Prop :=
  (weeklyStep dates todayStr now u).2
    = [Effect.send u.chatId (weeklyMsg todayStr
        (executionRate (weeklyFull dates u.logs) (weeklyTotal dates u.logs))
        (weeklyFull dates u.logs) (weeklyTotal dates u.logs))] ∧
  weeklyFull dates u.logs ≤ weeklyTotal dates u.logs ∧
  (weeklyTotal dates u.logs = 0 →
    executionRate (weeklyFull dates u.logs) (weeklyTotal dates u.logs) = 0) ∧
  (weeklyTotal dates u.logs ≠ 0 →
    2 * weeklyTotal dates u.logs *
        executionRate (weeklyFull dates u.logs) (weeklyTotal dates u.logs)
      ≤ 200 * weeklyFull dates u.logs + weeklyTotal dates u.logs ∧
    200 * weeklyFull dates u.logs + weeklyTotal dates u.logs
      < 2 * weeklyTotal dates u.logs *
          executionRate (weeklyFull dates u.logs) (weeklyTotal dates u.logs)
        + 2 * weeklyTotal dates u.logs) ∧
  getWeek (weeklyStep dates todayStr now u).1.weeklyStats (weekKeyOf dates)
    = some { startDate := (sortStrings dates).headD ""
             endDate := (sortStrings dates).getLastD ""
             habitExecutionRate :=
               executionRate (weeklyFull dates u.logs) (weeklyTotal dates u.logs)
             completedDays := weeklyFull dates u.logs
             totalDays := weeklyTotal dates u.logs
             generatedAt := now } ∧
  (∀ k, k ≠ weekKeyOf dates →
    getWeek (weeklyStep dates todayStr now u).1.weeklyStats k
      = getWeek u.weeklyStats k) ∧
  (weeklyStep dates todayStr now u).1.logs = u.logs ∧
  (weeklyStep dates todayStr now u).1.stats = u.stats

/-- C7: the weekly job body computes the trailing-window snapshot
(`totalDays` = dates with any log, `fullDays` = dates with both entries,
`rate` = half-up rounding of `100 * full / total`, 0 on an empty window),
delivers exactly one report message to the user, and appends the snapshot
record under the week key of that user's `weeklyStats`, touching nothing
else. -/
theorem weeklyStep_spec (dates : List String) (todayStr now : String)
    (u : User) (ho : u.onboarded = true) :
    WeeklyStepSpec dates todayStr now u := by
  have hTot : (dates.filter (isLoggedOn u.logs)).length
      = weeklyTotal dates u.logs :=
    (List.countP_eq_length_filter _ _).symm
  have hFull : (dates.filter (isFullOn u.logs)).length
      = weeklyFull dates u.logs :=
    (List.countP_eq_length_filter _ _).symm
  unfold WeeklyStepSpec weeklyStep
  rw [if_neg (by simp [ho])]
  dsimp only
  rw [hTot, hFull]
  refine ⟨rfl, weeklyFull_le_total dates u.logs, ?_, executionRate_bounds _ _, ?_, ?_, rfl, rfl⟩
  · intro h0
    unfold executionRate
    rw [if_pos h0]
  · rw [getWeek_setWeek_self]
  · intro k hk
    rw [getWeek_setWeek_ne _ _ _ _ hk]

/-- C7 (witness): the weekly body on a concrete onboarded user over a
two-date window. -/
theorem weeklyStep_spec_witness :
    wUser.onboarded = true ∧
      WeeklyStepSpec ["2025-01-02", "2025-01-01"] "2025-01-02" "T" wUser :=
  ⟨rfl, weeklyStep_spec ["2025-01-02", "2025-01-01"] "2025-01-02" "T" wUser rfl⟩

end MindArsenal
